import Mathlib

/-!
Verification development for the sport-community-admin persistence layer
(`src/services/site.ts`, `src/services/fileUpload.ts`, and the `ImageUpload`
component's `handleFileUpload`).

The remote relational store and the object-storage service are modelled as an
explicit state (`DB`): lists of rows per table plus the set of storage paths.
Each service function becomes a pure Lean function from an oracle (which
decides, per remote call, whether that call fails and with what message — the
outcome of a remote call is environment nondeterminism), the current state and
the function's arguments to the new state, the returned result object and the
trace of remote calls issued (`RemoteCall`).  Store-generated ids (UUIDs) are
modelled as `Nat` parameters assumed fresh where needed; `Date.now()` style
timestamps are `Nat` parameters; the random storage-path token is a `String`
parameter.  The store's documented behaviour (PostgREST `ilike` substring
matching, `count: exact` counting the filtered set, cascade rules stated in the
source comments, `.single()` failing on zero rows, `upsert: false` refusing an
existing path) is part of the model, following the source's comments.
-/

/-- A row of the `Site` table, with the columns written by this layer.
`avg_rating` is only ever written as the literal `0.0` here and is modelled as
an integer. -/
structure SiteRow where
  site_seq : Nat
  name : String
  url : String
  type_ : String
  is_recommend : Bool
  recommend_order : Nat
  status : String
  avg_rating : Int
  subscriber_count : Nat
  view_count : Nat
  logo_image : Option Nat
  created_at : Nat
  updated_at : Nat
deriving DecidableEq, Repr

/-- A row of the `SiteInfo` table as inserted by `createSiteWithDetails`. -/
structure SiteInfoRow where
  site_seq : Nat
  deposit_min : Int
  first_bonus : Int
  daily_repeat_bonus : Int
  casino_payback : Int
  slot_payback : Int
  rolling_rate : Int
  bet_limit_min : Int
  bet_limit_max : Int
  site_feature : String
  deposit_method : String
  withdrawal_method : String
  daily_first_bonus : Int
  slot_comp : Int
  casino_comp : Int
  casino_bonus : Int
  slot_bonus : Int
  sport_bonus : Int
  sport_payback : Int
  created_at : Nat
  updated_at : Nat
deriving DecidableEq, Repr

/-- A row of the `SiteDepositPromotion` table as inserted by
`createSiteWithDetails`. -/
structure PromotionRow where
  site_seq : Nat
  promotion_name : String
  deposit_type : String
  bonus_rate : Nat
  bonus_amount : Nat
  max_bonus : Int
  min_deposit : Int
  rollover_requirement : Int
  valid_days : Nat
  description : String
  terms_conditions : String
  is_active : Bool
  display_order : Nat
  created_at : Nat
  updated_at : Nat
deriving DecidableEq, Repr

/-- A row of the `File` table as inserted by `saveFileToDatabase`. -/
structure FileRow where
  file_seq : Nat
  file_name : String
  file_url : String
  file_type : String
deriving DecidableEq, Repr

/-- A row of the `FileDetail` table as inserted by `saveFileToDatabase`. -/
structure FileDetailRow where
  file_seq : Nat
  file_name : String
  file_path : String
  file_size : Nat
  file_extension : String
  file_sn : Nat
deriving DecidableEq, Repr

/-- The combined remote state: the relational tables touched by the verified
functions, plus the object-storage bucket modelled as the list of stored
paths.  (`SiteEvent`/`SiteBannerImg` are not touched by the verified
functions and are omitted.) -/
structure DB where
  sites : List SiteRow
  siteInfos : List SiteInfoRow
  promotions : List PromotionRow
  files : List FileRow
  fileDetails : List FileDetailRow
  storage : List String
deriving DecidableEq, Repr

/-- One remote call, as recorded in a function's trace. -/
inductive RemoteCall where
  | insertSite (seq : Nat)
  | insertSiteInfo (seq : Nat)
  | insertPromotions (seq : Nat) (count : Nat)
  | deleteSiteRows (seq : Nat)
  | querySite (seq : Nat)
  | pageQuery (fromIdx : Nat) (toIdx : Nat)
  | queryFilesIn (ids : List Nat)
  | queryFileDetail (seq : Nat)
  | storageUpload (path : String)
  | storageRemove (path : String)
  | insertFile (seq : Nat)
  | insertFileDetail (seq : Nat)
  | deleteFileRows (seq : Nat)
deriving DecidableEq, Repr

/-- Recognizer for the compensating root delete of the registration saga. -/
def RemoteCall.isDeleteSiteRows : RemoteCall → Bool
  | .deleteSiteRows _ => true
  | _ => false

/-- Recognizer for the single paged-and-counted listing query. -/
def RemoteCall.isPageQuery : RemoteCall → Bool
  | .pageQuery _ _ => true
  | _ => false

/-- Recognizer for the batch `id IN (...)` lookup against the `File` table. -/
def RemoteCall.isQueryFilesIn : RemoteCall → Bool
  | .queryFilesIn _ => true
  | _ => false

/-- Recognizer for the `File`-row delete. -/
def RemoteCall.isDeleteFileRows : RemoteCall → Bool
  | .deleteFileRows _ => true
  | _ => false

/-- Deleting a `Site` row: the store cascades `SiteInfo` and
`SiteDepositPromotion` (source comments at site.ts:288 and site.ts:319). -/
def deleteSiteCascade (db : DB) (seq : Nat) : DB :=
  { db with
    sites := List.filter (fun s => s.site_seq ≠ seq) db.sites,
    siteInfos := List.filter (fun r => r.site_seq ≠ seq) db.siteInfos,
    promotions := List.filter (fun r => r.site_seq ≠ seq) db.promotions }

/-- Deleting a `File` row: the store cascades `FileDetail`
(source comment at site.ts:1144). -/
def deleteFileCascade (db : DB) (seq : Nat) : DB :=
  { db with
    files := List.filter (fun r => r.file_seq ≠ seq) db.files,
    fileDetails := List.filter (fun r => r.file_seq ≠ seq) db.fileDetails }

/-- A promotion draft as supplied to the registration wizard: only the two
structural fields; everything else is defaulted by the insert. -/
structure PromotionDraft where
  bonus_rate : Nat
  bonus_amount : Nat
deriving DecidableEq, Repr

/-- The `SiteRegistrationData` input of `createSiteWithDetails`.  The optional
numeric fields defaulted with `|| 0` in the source are `Option Int`;
an absent `promotions` array is the empty list. -/
structure SiteRegistrationData where
  name : String
  url : String
  type_ : String
  status : String
  logo_image : Option Nat
  deposit_min : Int
  first_bonus : Int
  daily_repeat_bonus : Int
  casino_payback : Int
  slot_payback : Int
  rolling_rate : Int
  bet_limit_min : Int
  bet_limit_max : Int
  site_feature : String
  is_crypto : Bool
  daily_first_bonus : Option Int
  slot_comp : Option Int
  casino_comp : Option Int
  casino_bonus : Option Int
  slot_bonus : Option Int
  sport_bonus : Option Int
  sport_payback : Option Int
  promotions : List PromotionDraft
deriving DecidableEq, Repr

/-- The `Site` row built by step 1 of `createSiteWithDetails`
(site.ts:236-253). -/
def mkSiteRow (d : SiteRegistrationData) (seq now : Nat) : SiteRow :=
  { site_seq := seq
    name := d.name
    url := d.url
    type_ := d.type_
    is_recommend := false
    recommend_order := 0
    status := d.status
    avg_rating := 0
    subscriber_count := 0
    view_count := 0
    logo_image := d.logo_image
    created_at := now
    updated_at := now }

/-- The `SiteInfo` row built by step 2 of `createSiteWithDetails`
(site.ts:261-285). -/
def mkSiteInfoRow (d : SiteRegistrationData) (seq now : Nat) : SiteInfoRow :=
  { site_seq := seq
    deposit_min := d.deposit_min
    first_bonus := d.first_bonus
    daily_repeat_bonus := d.daily_repeat_bonus
    casino_payback := d.casino_payback
    slot_payback := d.slot_payback
    rolling_rate := d.rolling_rate
    bet_limit_min := d.bet_limit_min
    bet_limit_max := d.bet_limit_max
    site_feature := d.site_feature
    deposit_method := if d.is_crypto then "가상화폐 지원" else "일반 입출금"
    withdrawal_method := if d.is_crypto then "가상화폐 지원" else "일반 입출금"
    daily_first_bonus := d.daily_first_bonus.getD 0
    slot_comp := d.slot_comp.getD 0
    casino_comp := d.casino_comp.getD 0
    casino_bonus := d.casino_bonus.getD 0
    slot_bonus := d.slot_bonus.getD 0
    sport_bonus := d.sport_bonus.getD 0
    sport_payback := d.sport_payback.getD 0
    created_at := now
    updated_at := now }

/-- One `SiteDepositPromotion` row built by step 3 of `createSiteWithDetails`
(site.ts:296-312), including the synthesized display name
`` `${bonus_rate}+${bonus_amount} 입플` `` and every defaulted column. -/
def mkPromotionRow (seq now : Nat) (p : PromotionDraft) : PromotionRow :=
  { site_seq := seq
    promotion_name := toString p.bonus_rate ++ "+" ++ toString p.bonus_amount ++ " 입플"
    deposit_type := "first"
    bonus_rate := p.bonus_rate
    bonus_amount := p.bonus_amount
    max_bonus := 0
    min_deposit := 0
    rollover_requirement := 0
    valid_days := 30
    description := "입플 프로모션"
    terms_conditions := "이용 약관에 따라 적용됩니다."
    is_active := true
    display_order := 0
    created_at := now
    updated_at := now }

/-- Per-call failure oracle for `createSiteWithDetails`: `none` means the
remote call succeeds, `some e` that it fails with message `e`.  The
compensating root delete (site.ts:289 and site.ts:320) is awaited but its
result is never inspected by the code, so only its state effect is modelled,
by the Bool `compDelete` (true = the delete took effect remotely). -/
structure RegOracle where
  siteInsert : Option String
  siteInfoInsert : Option String
  promoInsert : Option String
  compDelete : Bool
deriving DecidableEq, Repr

/-- Result/state/trace of one `createSiteWithDetails` run. -/
structure RegOutcome where
  db : DB
  data : Option SiteRow
  error : Option String
  trace : List RemoteCall
deriving DecidableEq, Repr

/-- Shallow embedding of `createSiteWithDetails` (site.ts:228-334):
step 1 inserts the `Site` row (abort on failure, nothing to compensate);
step 2 inserts the `SiteInfo` row (on failure: compensating `Site` delete,
return the step's error); step 3, only when the promotions list is non-empty,
batch-inserts all promotion rows (on failure: compensating `Site` delete,
return the step's error); on success the created `Site` row is returned. -/
def createSiteWithDetails (o : RegOracle) (db : DB) (d : SiteRegistrationData)
    (seq now : Nat) : RegOutcome :=
  match o.siteInsert with
  | some e => { db := db, data := none, error := some e, trace := [RemoteCall.insertSite seq] }
  | none =>
    let site := mkSiteRow d seq now
    let db1 : DB := { db with sites := db.sites ++ [site] }
    match o.siteInfoInsert with
    | some e =>
      let db2 := if o.compDelete then deleteSiteCascade db1 seq else db1
      { db := db2, data := none, error := some e,
        trace := [RemoteCall.insertSite seq, RemoteCall.insertSiteInfo seq, RemoteCall.deleteSiteRows seq] }
    | none =>
      let db2 : DB := { db1 with siteInfos := db1.siteInfos ++ [mkSiteInfoRow d seq now] }
      if 0 < d.promotions.length then
        match o.promoInsert with
        | some e =>
          let db3 := if o.compDelete then deleteSiteCascade db2 seq else db2
          { db := db3, data := none, error := some e,
            trace := [RemoteCall.insertSite seq, RemoteCall.insertSiteInfo seq,
              RemoteCall.insertPromotions seq d.promotions.length, RemoteCall.deleteSiteRows seq] }
        | none =>
          { db := { db2 with promotions := db2.promotions ++ List.map (mkPromotionRow seq now) d.promotions },
            data := some site, error := none,
            trace := [RemoteCall.insertSite seq, RemoteCall.insertSiteInfo seq,
              RemoteCall.insertPromotions seq d.promotions.length] }
      else
        { db := db2, data := some site, error := none,
          trace := [RemoteCall.insertSite seq, RemoteCall.insertSiteInfo seq] }

/-- `name.split('.')` on the character list: split at every `'.'`. -/
def splitOnDot : List Char → List (List Char)
  | [] => [[]]
  | c :: t =>
    match splitOnDot t with
    | [] => if c = '.' then [[], []] else [[c]]
    | h :: hs => if c = '.' then [] :: h :: hs else (c :: h) :: hs

/-- The last segment of a split (`.pop()`), empty for an empty split. -/
def lastSegment : List (List Char) → List Char
  | [] => []
  | [x] => x
  | _ :: xs => lastSegment xs

/-- The extension extraction `file.name.split('.').pop() || ''` used by both
`uploadImageToStorage` (site.ts:961) and `uploadImage` (site.ts:1083). -/
def extOf (name : String) : String :=
  String.mk (lastSegment (splitOnDot name.data))

/-- The collision-resistant storage path built by `uploadImageToStorage`
(site.ts:962-963): folder plus a `Date.now()`-and-random token plus the
original extension.  The token is a model parameter. -/
def mkStoragePath (folderPath tok ext : String) : String :=
  folderPath ++ "/" ++ tok ++ "." ++ ext

/-- The public URL the storage service derives from a stored path
(`getPublicUrl`, site.ts:979-981), modelled as an abstract URL scheme. -/
def publicUrlOf (path : String) : String :=
  "https://storage.example/public/" ++ path

/-- Result of `uploadImageToStorage` plus resulting state and trace. -/
structure StorageOutcome where
  db : DB
  success : Bool
  filePath : Option String
  fileUrl : Option String
  error : Option String
  trace : List RemoteCall
deriving DecidableEq, Repr

/-- Shallow embedding of `uploadImageToStorage` (site.ts:949-995): build the
path, upload with `upsert: false` (an already-present path is refused by the
service), derive the public URL.  `fail` is the failure oracle of the single
storage call. -/
def uploadImageToStorage (fail : Option String) (db : DB) (fileName : String)
    (tok folderPath : String) : StorageOutcome :=
  let path := mkStoragePath folderPath tok (extOf fileName)
  match fail with
  | some e =>
    { db := db, success := false, filePath := none, fileUrl := none,
      error := some e, trace := [RemoteCall.storageUpload path] }
  | none =>
    if db.storage.contains path then
      { db := db, success := false, filePath := none, fileUrl := none,
        error := some "The resource already exists",
        trace := [RemoteCall.storageUpload path] }
    else
      { db := { db with storage := db.storage ++ [path] }, success := true,
        filePath := some path, fileUrl := some (publicUrlOf path),
        error := none, trace := [RemoteCall.storageUpload path] }

/-- The `FileUploadData` record assembled by `uploadImage` (site.ts:1077-1084)
and consumed by `saveFileToDatabase`. -/
structure FileUploadData where
  fileName : String
  fileType : String
  fileSize : Nat
  fileUrl : String
  filePath : String
  fileExtension : String
deriving DecidableEq, Repr

/-- Failure oracle for `saveFileToDatabase`'s two inserts.  The rollback
delete of the `File` row (site.ts:1042) is awaited but its result is never
inspected, so only its remote effect is modelled (`rollbackDelete` true =
the delete took effect). -/
structure FileDbOracle where
  fileInsert : Option String
  detailInsert : Option String
  rollbackDelete : Bool
deriving DecidableEq, Repr

/-- Result of `saveFileToDatabase` plus resulting state and trace. -/
structure SaveOutcome where
  db : DB
  success : Bool
  fileSeq : Option Nat
  error : Option String
  trace : List RemoteCall
deriving DecidableEq, Repr

/-- Shallow embedding of `saveFileToDatabase` (site.ts:1000-1058): insert the
`File` row (abort on failure); insert the `FileDetail` row; if that fails,
delete the just-inserted `File` row (rollback) and return the error. -/
def saveFileToDatabase (o : FileDbOracle) (db : DB) (fd : FileUploadData)
    (seq : Nat) : SaveOutcome :=
  match o.fileInsert with
  | some e =>
    { db := db, success := false, fileSeq := none, error := some e,
      trace := [RemoteCall.insertFile seq] }
  | none =>
    let fileRow : FileRow :=
      { file_seq := seq, file_name := fd.fileName, file_url := fd.fileUrl,
        file_type := fd.fileType }
    let db1 : DB := { db with files := db.files ++ [fileRow] }
    match o.detailInsert with
    | some e =>
      let db2 := if o.rollbackDelete then deleteFileCascade db1 seq else db1
      { db := db2, success := false, fileSeq := none, error := some e,
        trace := [RemoteCall.insertFile seq, RemoteCall.insertFileDetail seq,
          RemoteCall.deleteFileRows seq] }
    | none =>
      let detailRow : FileDetailRow :=
        { file_seq := seq, file_name := fd.fileName, file_path := fd.filePath,
          file_size := fd.fileSize, file_extension := fd.fileExtension,
          file_sn := 0 }
      { db := { db1 with fileDetails := db1.fileDetails ++ [detailRow] },
        success := true, fileSeq := some seq, error := none,
        trace := [RemoteCall.insertFile seq, RemoteCall.insertFileDetail seq] }

/-- The `file.type.startsWith('image/')` MIME check, on the character list
so that it evaluates structurally. -/
def startsWithImage (mime : String) : Bool :=
  List.isPrefixOf "image/".data mime.data

/-- A browser `File` object as seen by this layer: name, MIME type, size. -/
structure Blob where
  name : String
  type_ : String
  size : Nat
deriving DecidableEq, Repr

/-- Failure oracle for a full `uploadImage` run.  The cleanup
`storage.remove` issued when the database save fails (site.ts:1090-1092) is
awaited but its result is never inspected, so only its remote effect is
modelled (`cleanupRemove` true = the blob really disappeared). -/
structure UploadOracle where
  storageUpload : Option String
  dbo : FileDbOracle
  cleanupRemove : Bool
deriving DecidableEq, Repr

/-- The `UploadResult` of `uploadImage` plus resulting state and trace. -/
structure UploadOutcome where
  db : DB
  success : Bool
  fileUrl : Option String
  fileSeq : Option Nat
  error : Option String
  trace : List RemoteCall
deriving DecidableEq, Repr

/-- Shallow embedding of `uploadImage` (site.ts:1063-1109): upload the blob to
storage (abort on failure — no metadata is written); save the metadata rows
via `saveFileToDatabase`; if the save fails, remove the just-uploaded blob
from storage and return the save error; otherwise return the URL and id.
Note the function performs no size or MIME validation of its own. -/
def uploadImage (o : UploadOracle) (db : DB) (file : Blob) (tok : String)
    (seq : Nat) (folderPath : String) : UploadOutcome :=
  let up := uploadImageToStorage o.storageUpload db file.name tok folderPath
  if up.success = false then
    { db := up.db, success := false, fileUrl := none, fileSeq := none,
      error := up.error, trace := up.trace }
  else
    let fd : FileUploadData :=
      { fileName := file.name, fileType := file.type_, fileSize := file.size,
        fileUrl := up.fileUrl.getD "", filePath := up.filePath.getD "",
        fileExtension := extOf file.name }
    let save := saveFileToDatabase o.dbo up.db fd seq
    if save.success = false then
      let path := up.filePath.getD ""
      let db3 :=
        if o.cleanupRemove then
          { save.db with storage := List.filter (fun p => p ≠ path) save.db.storage }
        else save.db
      { db := db3, success := false, fileUrl := none, fileSeq := none,
        error := save.error,
        trace := up.trace ++ save.trace ++ [RemoteCall.storageRemove path] }
    else
      { db := save.db, success := true, fileUrl := up.fileUrl,
        fileSeq := save.fileSeq, error := none, trace := up.trace ++ save.trace }

/-- Result of one `handleFileUpload` run in the `ImageUpload` component:
resulting state, the component error message (if any), the
`(fileSeq, fileUrl)` pair handed to `onImageUpload` on success, and the trace
of remote calls made. -/
structure HandleOutcome where
  db : DB
  errorMsg : Option String
  uploaded : Option (Nat × String)
  trace : List RemoteCall
deriving DecidableEq, Repr

/-- Shallow embedding of the `ImageUpload` component's `handleFileUpload`
(ImageUpload component, lines 27-56): reject a blob over `maxSize` megabytes,
then reject a non-image MIME type, both locally with no remote call; otherwise
call `uploadImage` and report its outcome. -/
def handleFileUpload (o : UploadOracle) (db : DB) (file : Blob) (tok : String)
    (seq maxSize : Nat) : HandleOutcome :=
  if maxSize * 1024 * 1024 < file.size then
    { db := db,
      errorMsg := some ("파일 크기는 " ++ toString maxSize ++ "MB 이하여야 합니다."),
      uploaded := none, trace := [] }
  else if startsWithImage file.type_ = false then
    { db := db, errorMsg := some "이미지 파일만 업로드 가능합니다.",
      uploaded := none, trace := [] }
  else
    let r := uploadImage o db file tok seq "sites/logos"
    match r.success, r.fileSeq, r.fileUrl with
    | true, some fs, some fu =>
      { db := r.db, errorMsg := none, uploaded := some (fs, fu), trace := r.trace }
    | _, _, _ =>
      { db := r.db, errorMsg := some (r.error.getD "이미지 업로드에 실패했습니다."),
        uploaded := none, trace := r.trace }

/-- Failure oracle for `deleteImage`'s three remote calls. -/
structure DeleteImageOracle where
  detailLookup : Option String
  storageRemove : Option String
  fileDelete : Option String
deriving DecidableEq, Repr

/-- Result of `deleteImage` plus resulting state and trace. -/
structure DeleteImageOutcome where
  db : DB
  success : Bool
  error : Option String
  trace : List RemoteCall
deriving DecidableEq, Repr

/-- Shallow embedding of `deleteImage` (site.ts:1114-1167): look up the
`FileDetail` row by file id with `.single()` (a remote error, or zero rows,
aborts with an error and nothing is deleted); remove the blob from storage (on
failure, return the error without touching the metadata); delete the `File`
row (cascading `FileDetail`). -/
def deleteImage (o : DeleteImageOracle) (db : DB) (seq : Nat) : DeleteImageOutcome :=
  match o.detailLookup with
  | some e =>
    { db := db, success := false, error := some e,
      trace := [RemoteCall.queryFileDetail seq] }
  | none =>
    match List.find? (fun r => r.file_seq == seq) db.fileDetails with
    | none =>
      { db := db, success := false,
        error := some "JSON object requested, multiple (or no) rows returned",
        trace := [RemoteCall.queryFileDetail seq] }
    | some detail =>
      match o.storageRemove with
      | some e =>
        { db := db, success := false, error := some e,
          trace := [RemoteCall.queryFileDetail seq,
            RemoteCall.storageRemove detail.file_path] }
      | none =>
        let db1 : DB :=
          { db with storage := List.filter (fun p => p ≠ detail.file_path) db.storage }
        match o.fileDelete with
        | some e =>
          { db := db1, success := false, error := some e,
            trace := [RemoteCall.queryFileDetail seq,
              RemoteCall.storageRemove detail.file_path,
              RemoteCall.deleteFileRows seq] }
        | none =>
          { db := deleteFileCascade db1 seq, success := true, error := none,
            trace := [RemoteCall.queryFileDetail seq,
              RemoteCall.storageRemove detail.file_path,
              RemoteCall.deleteFileRows seq] }

/-- Failure oracle for `deleteSite`: the initial fetch, the nested
`deleteImage` calls, and the final `Site` delete. -/
structure DeleteSiteOracle where
  fetch : Option String
  image : DeleteImageOracle
  siteDelete : Option String
deriving DecidableEq, Repr

/-- Result of `deleteSite` plus resulting state and trace. -/
structure DeleteSiteOutcome where
  db : DB
  error : Option String
  trace : List RemoteCall
deriving DecidableEq, Repr

/-- Shallow embedding of `deleteSite` (site.ts:385-434): fetch the site's
`logo_image` with `.single()` (a remote error or zero rows aborts); if a logo
id is present, call `deleteImage` for it — any failure there is only logged
and the deletion continues; finally delete the `Site` row (cascading its
children). -/
def deleteSite (o : DeleteSiteOracle) (db : DB) (seq : Nat) : DeleteSiteOutcome :=
  match o.fetch with
  | some e => { db := db, error := some e, trace := [RemoteCall.querySite seq] }
  | none =>
    match List.find? (fun s => s.site_seq == seq) db.sites with
    | none =>
      { db := db,
        error := some "JSON object requested, multiple (or no) rows returned",
        trace := [RemoteCall.querySite seq] }
    | some site =>
      let step2 : DB × List RemoteCall :=
        match site.logo_image with
        | none => (db, [RemoteCall.querySite seq])
        | some fid =>
          let r := deleteImage o.image db fid
          (r.db, RemoteCall.querySite seq :: r.trace)
      match o.siteDelete with
      | some e =>
        { db := step2.1, error := some e,
          trace := step2.2 ++ [RemoteCall.deleteSiteRows seq] }
      | none =>
        { db := deleteSiteCascade step2.1 seq, error := none,
          trace := step2.2 ++ [RemoteCall.deleteSiteRows seq] }

/-- Contiguous-occurrence test on character lists: `true` iff `needle` occurs
as a contiguous run inside `hay`.  This is the substring semantics of the
store's `ilike \x25needle\x25` predicate (site.ts:64-68), per the store's
documented contract for substring predicates. -/
def containsChars (needle : List Char) : List Char → Bool
  | [] => needle.isEmpty
  | c :: t => needle.isPrefixOf (c :: t) || containsChars needle t

/-- Character-wise lowercasing, the case folding of `ilike`. -/
def lowerChars (cs : List Char) : List Char :=
  List.map Char.toLower cs

/-- Case-insensitive substring test: the semantics of `ilike` with a
`\x25search\x25` pattern. -/
def containsCI (hay needle : String) : Bool :=
  containsChars (lowerChars needle.data) (lowerChars hay.data)

/-- The `SiteFilter` input of `fetchFilteredSites`: each field absent (`none`)
or constraining. -/
structure SiteFilter where
  type_ : Option String
  status : Option String
  is_recommend : Option Bool
  search : Option String
deriving DecidableEq, Repr

/-- The predicate `fetchFilteredSites` builds (site.ts:46-68): exact equality
on type and status and recommendation flag when present, ANDed with a
case-insensitive substring match of the search text against name OR url. -/
def matchesFilter (f : SiteFilter) (s : SiteRow) : Bool :=
  (match f.type_ with
   | none => true
   | some t => s.type_ == t) &&
  (match f.status with
   | none => true
   | some st => s.status == st) &&
  (match f.is_recommend with
   | none => true
   | some b => s.is_recommend == b) &&
  (match f.search with
   | none => true
   | some q => containsCI s.name q || containsCI s.url q)

/-- Insertion step of the `created_at` descending sort. -/
def insertDesc (s : SiteRow) : List SiteRow → List SiteRow
  | [] => [s]
  | t :: ts => if t.created_at ≤ s.created_at then s :: t :: ts else t :: insertDesc s ts

/-- The `order("created_at", { ascending: false })` clause (site.ts:75),
modelled as an insertion sort on the `created_at` ordinal. -/
def orderByCreatedDesc : List SiteRow → List SiteRow
  | [] => []
  | s :: ss => insertDesc s (orderByCreatedDesc ss)

/-- The rows of the `Site` table matching the filter (what `count: exact`
counts, ignoring pagination). -/
def filteredSitesOf (db : DB) (f : SiteFilter) : List SiteRow :=
  List.filter (matchesFilter f) db.sites

/-- The page `fetchFilteredSites` receives: the ordered filtered rows
restricted to the inclusive row range starting at `(page - 1) * pageSize`
(site.ts:71-76). -/
def pageRowsOf (db : DB) (f : SiteFilter) (page pageSize : Nat) : List SiteRow :=
  List.take pageSize (List.drop ((page - 1) * pageSize) (orderByCreatedDesc (filteredSitesOf db f)))

/-- The logo-image ids collected from the page (site.ts:84-86): a `map`
followed by a non-null filter — no deduplication is performed. -/
def pageLogoIds (db : DB) (f : SiteFilter) (page pageSize : Nat) : List Nat :=
  List.filterMap (fun s => s.logo_image) (pageRowsOf db f page pageSize)

/-- The merge step (site.ts:108-111): `logoUrls[site.logo_image] || null` —
`none` when the row has no logo id, when the id was not resolved by the batch
lookup, or when the resolved URL is the empty string (falsy). -/
def mergedLogoUrl (resolvedFiles : List FileRow) (logo : Option Nat) : Option String :=
  match logo with
  | none => none
  | some id =>
    match List.find? (fun fr => fr.file_seq == id) resolvedFiles with
    | none => none
    | some fr => if fr.file_url = "" then none else some fr.file_url

/-- Result of `fetchFilteredSites`: each data row pairs the `Site` row with
its merged `logo_url`. -/
structure ListOutcome where
  data : List (SiteRow × Option String)
  totalCount : Nat
  trace : List RemoteCall
deriving DecidableEq, Repr

/-- Shallow embedding of `fetchFilteredSites` (site.ts:36-126): one query
carries the filter, the ordering, the inclusive row range
`[(page-1)*pageSize, (page-1)*pageSize + pageSize - 1]` and the exact count of
the filtered set; then, when the page yields at least one non-null logo id,
one batch `IN` lookup against the `File` table resolves those ids
(`fileLookupFails` true models that lookup erroring — the code then keeps an
empty URL map and still succeeds); finally the URLs are merged onto the rows. -/
def fetchFilteredSites (db : DB) (f : SiteFilter) (page pageSize : Nat)
    (fileLookupFails : Bool) : ListOutcome :=
  let fromIdx := (page - 1) * pageSize
  let toIdx := fromIdx + pageSize - 1
  let logoIds := pageLogoIds db f page pageSize
  let resolvedFiles :=
    if 0 < logoIds.length ∧ fileLookupFails = false then
      List.filter (fun fr => logoIds.contains fr.file_seq) db.files
    else []
  { data := List.map (fun s => (s, mergedLogoUrl resolvedFiles s.logo_image))
      (pageRowsOf db f page pageSize),
    totalCount := (filteredSitesOf db f).length,
    trace := RemoteCall.pageQuery fromIdx toIdx ::
      (if 0 < logoIds.length then [RemoteCall.queryFilesIn logoIds] else []) }

/-- Recognizer for the single batch promotion insert. -/
def RemoteCall.isInsertPromotions : RemoteCall → Bool
  | .insertPromotions _ _ => true
  | _ => false

/-- The empty remote state. -/
def dbEmpty : DB :=
  { sites := [], siteInfos := [], promotions := [], files := [],
    fileDetails := [], storage := [] }

/-- A concrete registration draft used by the witnesses. -/
def sampleReg : SiteRegistrationData :=
  { name := "Foo", url := "https://foo.com", type_ := "casino",
    status := "active", logo_image := none, deposit_min := 10000,
    first_bonus := 100, daily_repeat_bonus := 10, casino_payback := 5,
    slot_payback := 8, rolling_rate := 300, bet_limit_min := 1000,
    bet_limit_max := 1000000, site_feature := "slots", is_crypto := false,
    daily_first_bonus := none, slot_comp := none, casino_comp := none,
    casino_bonus := none, slot_bonus := none, sport_bonus := none,
    sport_payback := none,
    promotions := [{ bonus_rate := 3, bonus_amount := 2 }] }

/-- The same draft with a duplicated promotion definition. -/
def sampleRegDup : SiteRegistrationData :=
  { sampleReg with
    promotions := [{ bonus_rate := 3, bonus_amount := 2 },
      { bonus_rate := 3, bonus_amount := 2 }] }

/-- The same draft with no promotions. -/
def sampleRegNoPromo : SiteRegistrationData :=
  { sampleReg with promotions := [] }

/-- The empty site filter. -/
def fNone : SiteFilter := { type_ := none, status := none, is_recommend := none, search := none }

/-- A concrete `Site` row whose logo id is 5. -/
def siteA : SiteRow :=
  { site_seq := 1, name := "Alpha Casino", url := "https://alpha.example",
    type_ := "casino", is_recommend := false, recommend_order := 0,
    status := "active", avg_rating := 0, subscriber_count := 0,
    view_count := 0, logo_image := some 5, created_at := 2, updated_at := 2 }

/-- A second row sharing logo id 5. -/
def siteB : SiteRow :=
  { siteA with
    site_seq := 2
    name := "Beta"
    url := "https://beta.example"
    created_at := 1
    updated_at := 1 }

/-- A row with no logo. -/
def siteC : SiteRow :=
  { siteA with
    site_seq := 3
    name := "Gamma"
    url := "https://gamma.example"
    logo_image := none
    created_at := 0
    updated_at := 0 }

/-- A row whose logo id 6 has no `File` row. -/
def siteD : SiteRow :=
  { siteA with
    site_seq := 4
    name := "Delta"
    url := "https://delta.example"
    logo_image := some 6
    created_at := 3
    updated_at := 3 }

/-- The `File` row for logo id 5. -/
def fileFive : FileRow :=
  { file_seq := 5, file_name := "logo.png",
    file_url := "https://storage.example/public/sites/logos/t.png",
    file_type := "image/png" }

/-- The `FileDetail` row for file id 5. -/
def detailFive : FileDetailRow :=
  { file_seq := 5, file_name := "logo.png", file_path := "sites/logos/t.png",
    file_size := 1000, file_extension := "png", file_sn := 0 }

/-- A state holding file 5's metadata pair and its blob. -/
def dbFile : DB :=
  { dbEmpty with
    files := [fileFive]
    fileDetails := [detailFive]
    storage := ["sites/logos/t.png"] }

/-- A state with one site (logo id 5) plus file 5's metadata and blob. -/
def dbSite : DB := { dbFile with sites := [siteA] }

/-- A state whose first page has two rows sharing logo id 5. -/
def dbC9 : DB := { dbEmpty with sites := [siteA, siteB], files := [fileFive] }

/-- A state whose first page has rows with logo ids `[6, 5, null]` in page
order, of which only 5 resolves. -/
def dbLogos : DB := { dbEmpty with sites := [siteA, siteC, siteD], files := [fileFive] }

/-- An all-success upload oracle. -/
def oAllOk : UploadOracle :=
  { storageUpload := none,
    dbo := { fileInsert := none, detailInsert := none, rollbackDelete := true },
    cleanupRemove := true }

/-- An upload oracle whose `File` insert fails. -/
def oFileInsertFails : UploadOracle :=
  { storageUpload := none
    dbo := { fileInsert := some "insert failed", detailInsert := none, rollbackDelete := true }
    cleanupRemove := true }

/-- An oversized, non-image blob. -/
def bigBlob : Blob := { name := "big.txt", type_ := "text/plain", size := 6 * 1024 * 1024 }

/-- A small image blob. -/
def blobPng : Blob := { name := "logo.png", type_ := "image/png", size := 1000 }

/-- Membership is preserved by the insertion step of the sort. -/
theorem mem_insertDesc {a s : SiteRow} {l : List SiteRow} :
    a ∈ insertDesc s l ↔ a ∈ s :: l := by
  induction l with
  | nil => simp [insertDesc]
  | cons t ts ih =>
    simp only [insertDesc]
    split
    · simp
    · simp only [List.mem_cons, ih]
      tauto

/-- Membership is preserved by the `created_at` descending sort. -/
theorem mem_orderByCreatedDesc {a : SiteRow} {l : List SiteRow} :
    a ∈ orderByCreatedDesc l ↔ a ∈ l := by
  induction l with
  | nil => simp [orderByCreatedDesc]
  | cons s ss ih => simp [orderByCreatedDesc, mem_insertDesc, ih]

/-- Filtering away a fresh id from a list that never used it, after appending
one row carrying that id, gives back the original list. -/
theorem filter_ne_site_append (l : List SiteRow) (site : SiteRow) (seq : Nat)
    (hfresh : ∀ s ∈ l, s.site_seq ≠ seq) (hsite : site.site_seq = seq) :
    List.filter (fun s => s.site_seq ≠ seq) (l ++ [site]) = l := by
  rw [List.filter_append]
  have h1 : List.filter (fun s => decide (s.site_seq ≠ seq)) l = l :=
    List.filter_eq_self.mpr (fun a ha => by simpa using hfresh a ha)
  have h2 : List.filter (fun s => decide (s.site_seq ≠ seq)) [site] = [] := by
    simp [hsite]
  rw [h1, h2, List.append_nil]

/-- Claim C1: if step 2 (the `SiteInfo` insert) or step 3 (the promotion batch
insert) of `createSiteWithDetails` fails after the `Site` row was inserted,
exactly one compensating delete of that `Site` row is performed, the failing
step's error is returned with null data, and (the compensating delete having
taken effect) no `Site` row created by the attempt survives. -/
theorem createSiteWithDetails_compensates
    (o : RegOracle) (db : DB) (d : SiteRegistrationData) (seq now : Nat)
    (h1 : o.siteInsert = none)
    (h2 : o.siteInfoInsert.isSome = true ∨
      (o.siteInfoInsert = none ∧ 0 < d.promotions.length ∧ o.promoInsert.isSome = true))
    (hcomp : o.compDelete = true)
    (hfresh : ∀ s ∈ db.sites, s.site_seq ≠ seq) :
    (createSiteWithDetails o db d seq now).data = none ∧
    (createSiteWithDetails o db d seq now).error =
      (if o.siteInfoInsert.isSome then o.siteInfoInsert else o.promoInsert) ∧
    List.countP RemoteCall.isDeleteSiteRows (createSiteWithDetails o db d seq now).trace = 1 ∧
    (createSiteWithDetails o db d seq now).db.sites = db.sites := by
  have hmk : (mkSiteRow d seq now).site_seq = seq := rfl
  rcases h2 with h2 | ⟨hinfo, hlen, hpromo⟩
  · obtain ⟨e, he⟩ := Option.isSome_iff_exists.mp h2
    simp only [createSiteWithDetails, h1, he, hcomp, if_true, deleteSiteCascade]
    refine ⟨trivial, by simp [he], by simp [List.countP_cons, RemoteCall.isDeleteSiteRows], ?_⟩
    exact filter_ne_site_append db.sites (mkSiteRow d seq now) seq hfresh hmk
  · obtain ⟨e, he⟩ := Option.isSome_iff_exists.mp hpromo
    simp only [createSiteWithDetails, h1, hinfo, he, hcomp, hlen, if_true, deleteSiteCascade]
    refine ⟨trivial, by simp [hinfo], by simp [List.countP_cons, RemoteCall.isDeleteSiteRows], ?_⟩
    exact filter_ne_site_append db.sites (mkSiteRow d seq now) seq hfresh hmk

/-- Witness for C1: a concrete failed registration (the `SiteInfo` insert
fails) returns null data with the step's error, performs exactly one
compensating delete, and leaves no `Site` row behind. -/
theorem createSiteWithDetails_compensates_witness :
    (createSiteWithDetails ⟨none, some "info boom", none, true⟩ dbEmpty sampleReg 1 0).data = none ∧
    (createSiteWithDetails ⟨none, some "info boom", none, true⟩ dbEmpty sampleReg 1 0).error = some "info boom" ∧
    List.countP RemoteCall.isDeleteSiteRows
      (createSiteWithDetails ⟨none, some "info boom", none, true⟩ dbEmpty sampleReg 1 0).trace = 1 ∧
    (createSiteWithDetails ⟨none, some "info boom", none, true⟩ dbEmpty sampleReg 1 0).db.sites = [] := by
  have h := createSiteWithDetails_compensates ⟨none, some "info boom", none, true⟩
    dbEmpty sampleReg 1 0 rfl (Or.inl rfl) rfl (by simp [dbEmpty])
  exact ⟨h.1, by simpa using h.2.1, h.2.2.1, by simpa [dbEmpty] using h.2.2.2⟩

/-- Claim C8: on a successful registration with a non-empty promotion list,
the promotion rows are appended as one batch insert, in the supplied order and
without deduplication (the per-row structural fields equal the input list,
duplicates included), and each row's display name is synthesized as
`` `${bonus_rate}+${bonus_amount} 입플` ``. -/
theorem createSiteWithDetails_promotion_batch
    (o : RegOracle) (db : DB) (d : SiteRegistrationData) (seq now : Nat)
    (h1 : o.siteInsert = none) (h2 : o.siteInfoInsert = none)
    (h3 : o.promoInsert = none) (hlen : 0 < d.promotions.length) :
    (createSiteWithDetails o db d seq now).db.promotions =
      db.promotions ++ List.map (mkPromotionRow seq now) d.promotions ∧
    List.countP RemoteCall.isInsertPromotions (createSiteWithDetails o db d seq now).trace = 1 ∧
    RemoteCall.insertPromotions seq d.promotions.length ∈
      (createSiteWithDetails o db d seq now).trace ∧
    List.map (fun pr => (pr.bonus_rate, pr.bonus_amount))
        (List.map (mkPromotionRow seq now) d.promotions) =
      List.map (fun p => (p.bonus_rate, p.bonus_amount)) d.promotions ∧
    ∀ p ∈ d.promotions, (mkPromotionRow seq now p).promotion_name =
      toString p.bonus_rate ++ "+" ++ toString p.bonus_amount ++ " 입플" := by
  simp only [createSiteWithDetails, h1, h2, h3, hlen, if_true]
  refine ⟨trivial, by simp [List.countP_cons, RemoteCall.isInsertPromotions], by simp, ?_, ?_⟩
  · simp [mkPromotionRow]
  · intro p _
    rfl

/-- Witness for C8: registering with the duplicated promotion list
`[{3,2},{3,2}]` appends two distinct rows, in order, each named `3+2 입플`. -/
theorem createSiteWithDetails_promotion_batch_witness :
    (createSiteWithDetails ⟨none, none, none, true⟩ dbEmpty sampleRegDup 1 0).db.promotions =
      [mkPromotionRow 1 0 ⟨3, 2⟩, mkPromotionRow 1 0 ⟨3, 2⟩] ∧
    (mkPromotionRow 1 0 ⟨3, 2⟩).promotion_name = "3+2 입플" ∧
    RemoteCall.insertPromotions 1 2 ∈
      (createSiteWithDetails ⟨none, none, none, true⟩ dbEmpty sampleRegDup 1 0).trace := by
  have h := createSiteWithDetails_promotion_batch ⟨none, none, none, true⟩
    dbEmpty sampleRegDup 1 0 rfl rfl rfl (by simp [sampleRegDup, sampleReg])
  refine ⟨by simpa [dbEmpty, sampleRegDup, sampleReg] using h.1, ?_, ?_⟩
  · have := h.2.2.2.2 ⟨3, 2⟩ (by simp [sampleRegDup, sampleReg])
    simpa using this
  · simpa [sampleRegDup, sampleReg] using h.2.2.1

/-- Claim C10: with an empty (or absent) promotions list and successful first
two steps, the promotion insert step is skipped entirely and the call
succeeds, returning the created `Site` with a null error after inserting only
the `Site` and `SiteInfo` rows. -/
theorem createSiteWithDetails_empty_promotions
    (o : RegOracle) (db : DB) (d : SiteRegistrationData) (seq now : Nat)
    (h1 : o.siteInsert = none) (h2 : o.siteInfoInsert = none)
    (hp : d.promotions = []) :
    (createSiteWithDetails o db d seq now).error = none ∧
    (createSiteWithDetails o db d seq now).data = some (mkSiteRow d seq now) ∧
    (createSiteWithDetails o db d seq now).db.sites = db.sites ++ [mkSiteRow d seq now] ∧
    (createSiteWithDetails o db d seq now).db.siteInfos =
      db.siteInfos ++ [mkSiteInfoRow d seq now] ∧
    (createSiteWithDetails o db d seq now).db.promotions = db.promotions ∧
    (createSiteWithDetails o db d seq now).trace =
      [RemoteCall.insertSite seq, RemoteCall.insertSiteInfo seq] := by
  simp [createSiteWithDetails, h1, h2, hp]

/-- Witness for C10: a concrete promotionless registration succeeds with only
the `Site` and `SiteInfo` inserts. -/
theorem createSiteWithDetails_empty_promotions_witness :
    (createSiteWithDetails ⟨none, none, none, true⟩ dbEmpty sampleRegNoPromo 1 0).error = none ∧
    (createSiteWithDetails ⟨none, none, none, true⟩ dbEmpty sampleRegNoPromo 1 0).data =
      some (mkSiteRow sampleRegNoPromo 1 0) ∧
    (createSiteWithDetails ⟨none, none, none, true⟩ dbEmpty sampleRegNoPromo 1 0).db.promotions = [] ∧
    (createSiteWithDetails ⟨none, none, none, true⟩ dbEmpty sampleRegNoPromo 1 0).trace =
      [RemoteCall.insertSite 1, RemoteCall.insertSiteInfo 1] := by
  have h := createSiteWithDetails_empty_promotions ⟨none, none, none, true⟩
    dbEmpty sampleRegNoPromo 1 0 rfl rfl (by simp [sampleRegNoPromo, sampleReg])
  exact ⟨h.1, h.2.1, by simpa [dbEmpty] using h.2.2.2.2.1, h.2.2.2.2.2⟩

/-- Filtering away a fresh id from a file list that never used it, after
appending one row carrying that id, gives back the original list. -/
theorem filter_ne_file_append (l : List FileRow) (fr : FileRow) (seq : Nat)
    (hfresh : ∀ r ∈ l, r.file_seq ≠ seq) (hr : fr.file_seq = seq) :
    List.filter (fun r => r.file_seq ≠ seq) (l ++ [fr]) = l := by
  rw [List.filter_append]
  have h1 : List.filter (fun r => decide (r.file_seq ≠ seq)) l = l :=
    List.filter_eq_self.mpr (fun a ha => by simpa using hfresh a ha)
  have h2 : List.filter (fun r => decide (r.file_seq ≠ seq)) [fr] = [] := by
    simp [hr]
  rw [h1, h2, List.append_nil]

/-- Claim C2: when the `FileDetail` insert fails after the `File` row was
inserted, `saveFileToDatabase` deletes the just-inserted `File` row before
returning the error, so (the rollback delete having taken effect) no `File`
row with the generated id survives and a subsequent lookup for that id
returns not-found. -/
theorem saveFileToDatabase_rollback
    (o : FileDbOracle) (db : DB) (fd : FileUploadData) (seq : Nat)
    (h1 : o.fileInsert = none) (h2 : o.detailInsert.isSome = true)
    (h3 : o.rollbackDelete = true)
    (hfresh : ∀ r ∈ db.files, r.file_seq ≠ seq) :
    (saveFileToDatabase o db fd seq).success = false ∧
    (saveFileToDatabase o db fd seq).error = o.detailInsert ∧
    (saveFileToDatabase o db fd seq).trace =
      [RemoteCall.insertFile seq, RemoteCall.insertFileDetail seq,
        RemoteCall.deleteFileRows seq] ∧
    (saveFileToDatabase o db fd seq).db.files = db.files ∧
    List.find? (fun r => r.file_seq == seq) (saveFileToDatabase o db fd seq).db.files = none := by
  obtain ⟨e, he⟩ := Option.isSome_iff_exists.mp h2
  have hfiles : (saveFileToDatabase o db fd seq).db.files = db.files := by
    simp only [saveFileToDatabase, h1, he, h3, if_true, deleteFileCascade]
    exact filter_ne_file_append db.files _ seq hfresh rfl
  refine ⟨by simp [saveFileToDatabase, h1, he], by simp [saveFileToDatabase, h1, he],
    by simp [saveFileToDatabase, h1, he], hfiles, ?_⟩
  rw [hfiles]
  exact List.find?_eq_none.mpr (fun r hr => by simpa using hfresh r hr)

/-- Witness for C2: a concrete upload whose `FileDetail` insert fails ends
with no `File` row for the generated id and the detail error returned. -/
theorem saveFileToDatabase_rollback_witness :
    (saveFileToDatabase ⟨none, some "detail boom", true⟩ dbEmpty
      ⟨"logo.png", "image/png", 1000, "u", "p", "png"⟩ 1).success = false ∧
    (saveFileToDatabase ⟨none, some "detail boom", true⟩ dbEmpty
      ⟨"logo.png", "image/png", 1000, "u", "p", "png"⟩ 1).error = some "detail boom" ∧
    (saveFileToDatabase ⟨none, some "detail boom", true⟩ dbEmpty
      ⟨"logo.png", "image/png", 1000, "u", "p", "png"⟩ 1).db.files = [] ∧
    List.find? (fun r => r.file_seq == 1)
      (saveFileToDatabase ⟨none, some "detail boom", true⟩ dbEmpty
        ⟨"logo.png", "image/png", 1000, "u", "p", "png"⟩ 1).db.files = none := by
  have h := saveFileToDatabase_rollback ⟨none, some "detail boom", true⟩ dbEmpty
    ⟨"logo.png", "image/png", 1000, "u", "p", "png"⟩ 1 rfl rfl rfl (by simp [dbEmpty])
  exact ⟨h.1, by simpa using h.2.1, by simpa [dbEmpty] using h.2.2.2.1, h.2.2.2.2⟩

/-- Counterexample to claim C3: `uploadImage` itself performs no size or MIME
validation.  Called directly with an oversized (6MB > the 5MB ceiling)
non-image blob and an all-success environment, it makes the storage call
first, stores the blob, and creates the metadata rows — it does not reject
the blob locally. -/
theorem uploadImage_no_validation_counterexample :
    (uploadImage oAllOk dbEmpty bigBlob "t" 1 "sites/logos").success = true ∧
    (uploadImage oAllOk dbEmpty bigBlob "t" 1 "sites/logos").db.storage =
      ["sites/logos/t.txt"] ∧
    (uploadImage oAllOk dbEmpty bigBlob "t" 1 "sites/logos").db.files.length = 1 ∧
    List.head? (uploadImage oAllOk dbEmpty bigBlob "t" 1 "sites/logos").trace =
      some (RemoteCall.storageUpload "sites/logos/t.txt") ∧
    5 * 1024 * 1024 < bigBlob.size ∧
    startsWithImage bigBlob.type_ = false := by
  decide

/-- Claim C3 as amended: the megabyte-ceiling and image-MIME checks are
performed by the `ImageUpload` component's `handleFileUpload` before it
invokes `uploadImage`: an oversized or non-image blob is rejected locally
with an error message, no remote call, and no change to storage or
metadata. -/
theorem handleFileUpload_validates_locally
    (o : UploadOracle) (db : DB) (file : Blob) (tok : String) (seq maxSize : Nat)
    (h : maxSize * 1024 * 1024 < file.size ∨ startsWithImage file.type_ = false) :
    (handleFileUpload o db file tok seq maxSize).errorMsg.isSome = true ∧
    (handleFileUpload o db file tok seq maxSize).uploaded = none ∧
    (handleFileUpload o db file tok seq maxSize).db = db ∧
    (handleFileUpload o db file tok seq maxSize).trace = [] := by
  rcases h with h | h
  · simp [handleFileUpload, h]
  · by_cases hsz : maxSize * 1024 * 1024 < file.size
    · simp [handleFileUpload, hsz]
    · simp [handleFileUpload, hsz, h]

/-- Witness for the amended C3: the concrete oversized non-image blob is
rejected by `handleFileUpload` with no remote call and no state change. -/
theorem handleFileUpload_validates_locally_witness :
    (handleFileUpload oAllOk dbEmpty bigBlob "t" 1 5).errorMsg.isSome = true ∧
    (handleFileUpload oAllOk dbEmpty bigBlob "t" 1 5).uploaded = none ∧
    (handleFileUpload oAllOk dbEmpty bigBlob "t" 1 5).db = dbEmpty ∧
    (handleFileUpload oAllOk dbEmpty bigBlob "t" 1 5).trace = [] :=
  handleFileUpload_validates_locally oAllOk dbEmpty bigBlob "t" 1 5 (Or.inl (by decide))

/-- Counterexample to claim C4: in a run where the blob was stored and the
`File` insert then fails, `uploadImage` does **not** leave the blob in
storage — it issues a storage remove for the uploaded path, and (the remove
having taken effect) the blob is gone; the metadata error is returned. -/
theorem uploadImage_cleanup_counterexample :
    (uploadImage oFileInsertFails dbEmpty blobPng "t" 1 "sites/logos").error =
      some "insert failed" ∧
    (uploadImage oFileInsertFails dbEmpty blobPng "t" 1 "sites/logos").db.storage = [] ∧
    RemoteCall.storageRemove "sites/logos/t.png" ∈
      (uploadImage oFileInsertFails dbEmpty blobPng "t" 1 "sites/logos").trace := by
  decide

/-- Claim C4 as amended: when the `File` metadata insert fails after the blob
was written to storage, `uploadImage` issues a storage remove for the
just-uploaded blob (the result of that remove is not inspected) and returns
the metadata error; when the remove takes effect the blob does not remain in
storage and the `File` table is unchanged. -/
theorem uploadImage_cleanup_on_metadata_failure
    (o : UploadOracle) (db : DB) (file : Blob) (tok : String) (seq : Nat)
    (folderPath : String)
    (hs : o.storageUpload = none)
    (hf : o.dbo.fileInsert.isSome = true)
    (hclean : o.cleanupRemove = true)
    (hpath : mkStoragePath folderPath tok (extOf file.name) ∉ db.storage) :
    (uploadImage o db file tok seq folderPath).success = false ∧
    (uploadImage o db file tok seq folderPath).error = o.dbo.fileInsert ∧
    RemoteCall.storageRemove (mkStoragePath folderPath tok (extOf file.name)) ∈
      (uploadImage o db file tok seq folderPath).trace ∧
    (uploadImage o db file tok seq folderPath).db.storage = db.storage ∧
    (uploadImage o db file tok seq folderPath).db.files = db.files := by
  obtain ⟨e, he⟩ := Option.isSome_iff_exists.mp hf
  have hcontains : db.storage.contains (mkStoragePath folderPath tok (extOf file.name)) = false := by
    rw [List.contains_eq_any_beq]
    simp only [List.any_eq_false, beq_iff_eq]
    intro a ha hEq
    exact hpath (hEq ▸ ha)
  have h1 : List.filter (fun p => p ≠ mkStoragePath folderPath tok (extOf file.name))
      db.storage = db.storage := by
    apply List.filter_eq_self.mpr
    intro a ha
    have hne : a ≠ mkStoragePath folderPath tok (extOf file.name) := by
      intro hEq
      exact hpath (hEq ▸ ha)
    simpa using hne
  have hstor : List.filter (fun p => p ≠ mkStoragePath folderPath tok (extOf file.name))
      (db.storage ++ [mkStoragePath folderPath tok (extOf file.name)]) = db.storage := by
    rw [List.filter_append, h1]
    simp
  simp only [uploadImage, uploadImageToStorage, saveFileToDatabase, hs, he, hclean,
    hcontains, if_true]
  simp [hstor]
  intro a ha hEq
  exact hpath (hEq ▸ ha)

/-- Witness for the amended C4: the concrete failing-insert run removes the
uploaded blob and returns the metadata error. -/
theorem uploadImage_cleanup_on_metadata_failure_witness :
    (uploadImage oFileInsertFails dbEmpty blobPng "t" 1 "sites/logos").success = false ∧
    (uploadImage oFileInsertFails dbEmpty blobPng "t" 1 "sites/logos").error =
      some "insert failed" ∧
    RemoteCall.storageRemove "sites/logos/t.png" ∈
      (uploadImage oFileInsertFails dbEmpty blobPng "t" 1 "sites/logos").trace ∧
    (uploadImage oFileInsertFails dbEmpty blobPng "t" 1 "sites/logos").db.storage = [] ∧
    (uploadImage oFileInsertFails dbEmpty blobPng "t" 1 "sites/logos").db.files = [] := by
  have h := uploadImage_cleanup_on_metadata_failure oFileInsertFails dbEmpty blobPng
    "t" 1 "sites/logos" rfl rfl rfl (by simp [dbEmpty])
  have hpatheq : mkStoragePath "sites/logos" "t" (extOf blobPng.name) = "sites/logos/t.png" := by
    decide
  refine ⟨h.1, by simpa [oFileInsertFails] using h.2.1, ?_, by simpa [dbEmpty] using h.2.2.2.1,
    by simpa [dbEmpty] using h.2.2.2.2⟩
  have hmem := h.2.2.1
  rwa [hpatheq] at hmem

/-- No `Site` row with the deleted id survives a cascade delete. -/
theorem deleteSiteCascade_no_site (X : DB) (seq : Nat) :
    ∀ s ∈ (deleteSiteCascade X seq).sites, s.site_seq ≠ seq := by
  intro s hs
  have h := List.mem_filter.mp hs
  simpa using h.2

/-- Claim C5: `deleteImage` performs the `FileDetail` lookup, then the storage
delete, then the `File`-row delete, in that order; a failed lookup (remote
error or missing row) aborts with an error, no deletion performed and the
state untouched; a failed storage delete returns failure leaving both blob
and metadata intact, the metadata delete never issued. -/
theorem deleteImage_ordered_aborts (o : DeleteImageOracle) (db : DB) (seq : Nat) :
    ((o.detailLookup.isSome = true ∨
        List.find? (fun r => r.file_seq == seq) db.fileDetails = none) →
      (deleteImage o db seq).success = false ∧
      (deleteImage o db seq).error.isSome = true ∧
      (deleteImage o db seq).db = db ∧
      (deleteImage o db seq).trace = [RemoteCall.queryFileDetail seq]) ∧
    (∀ detail, o.detailLookup = none →
      List.find? (fun r => r.file_seq == seq) db.fileDetails = some detail →
      o.storageRemove.isSome = true →
      (deleteImage o db seq).success = false ∧
      (deleteImage o db seq).error = o.storageRemove ∧
      (deleteImage o db seq).db = db ∧
      (deleteImage o db seq).trace =
        [RemoteCall.queryFileDetail seq, RemoteCall.storageRemove detail.file_path]) ∧
    (∀ detail, o.detailLookup = none →
      List.find? (fun r => r.file_seq == seq) db.fileDetails = some detail →
      o.storageRemove = none →
      (deleteImage o db seq).trace =
        [RemoteCall.queryFileDetail seq, RemoteCall.storageRemove detail.file_path,
          RemoteCall.deleteFileRows seq]) := by
  refine ⟨?_, ?_, ?_⟩
  · intro h
    rcases h with h | h
    · obtain ⟨e, he⟩ := Option.isSome_iff_exists.mp h
      simp [deleteImage, he]
    · cases ho : o.detailLookup with
      | some e => simp [deleteImage, ho]
      | none => simp [deleteImage, ho, h]
  · intro detail h1 h2 h3
    obtain ⟨e, he⟩ := Option.isSome_iff_exists.mp h3
    simp [deleteImage, h1, h2, he]
  · intro detail h1 h2 h3
    cases h4 : o.fileDelete <;> simp [deleteImage, h1, h2, h3, h4]

/-- Witness for C5: a concrete storage-delete failure returns the storage
error, leaves the state (blob and metadata) untouched, and never issues the
`File`-row delete. -/
theorem deleteImage_ordered_aborts_witness :
    (deleteImage ⟨none, some "net down", none⟩ dbFile 5).success = false ∧
    (deleteImage ⟨none, some "net down", none⟩ dbFile 5).error = some "net down" ∧
    (deleteImage ⟨none, some "net down", none⟩ dbFile 5).db = dbFile ∧
    (deleteImage ⟨none, some "net down", none⟩ dbFile 5).trace =
      [RemoteCall.queryFileDetail 5, RemoteCall.storageRemove "sites/logos/t.png"] := by
  have h := (deleteImage_ordered_aborts ⟨none, some "net down", none⟩ dbFile 5).2.1
    detailFive rfl (by decide) rfl
  exact ⟨h.1, by simpa using h.2.1, h.2.2.1, h.2.2.2⟩

/-- Claim C6: when the fetch succeeds and the final delete succeeds,
`deleteSite` deletes the `Site` row with a null error whatever the
logo-deletion outcome was; with no logo present the trace is just the fetch
and the `Site` delete (no storage or file call); with a logo present the
trace interposes exactly the `deleteImage` calls for that file id. -/
theorem deleteSite_logo_path (o : DeleteSiteOracle) (db : DB) (seq : Nat) (site : SiteRow)
    (hf : o.fetch = none)
    (hfind : List.find? (fun s => s.site_seq == seq) db.sites = some site)
    (hdel : o.siteDelete = none) :
    (deleteSite o db seq).error = none ∧
    (∀ s ∈ (deleteSite o db seq).db.sites, s.site_seq ≠ seq) ∧
    (site.logo_image = none →
      (deleteSite o db seq).trace =
        [RemoteCall.querySite seq, RemoteCall.deleteSiteRows seq]) ∧
    (∀ fid, site.logo_image = some fid →
      (deleteSite o db seq).trace =
        RemoteCall.querySite seq :: (deleteImage o.image db fid).trace ++
          [RemoteCall.deleteSiteRows seq]) := by
  refine ⟨?_, ?_, ?_, ?_⟩
  · simp [deleteSite, hf, hfind, hdel]
  · simp only [deleteSite, hf, hfind, hdel]
    exact deleteSiteCascade_no_site _ seq
  · intro hlogo
    simp [deleteSite, hf, hfind, hdel, hlogo]
  · intro fid hlogo
    simp [deleteSite, hf, hfind, hdel, hlogo]

/-- Witness for C6: deleting a concrete site whose logo deletion fails at the
storage step still deletes the `Site` row, returns a null error, and the
trace shows the attempted logo deletion between the fetch and the `Site`
delete. -/
theorem deleteSite_logo_path_witness :
    (deleteSite ⟨none, ⟨none, some "storage down", none⟩, none⟩ dbSite 1).error = none ∧
    (∀ s ∈ (deleteSite ⟨none, ⟨none, some "storage down", none⟩, none⟩ dbSite 1).db.sites,
      s.site_seq ≠ 1) ∧
    (deleteSite ⟨none, ⟨none, some "storage down", none⟩, none⟩ dbSite 1).trace =
      [RemoteCall.querySite 1, RemoteCall.queryFileDetail 5,
        RemoteCall.storageRemove "sites/logos/t.png", RemoteCall.deleteSiteRows 1] := by
  have h := deleteSite_logo_path ⟨none, ⟨none, some "storage down", none⟩, none⟩
    dbSite 1 siteA rfl (by decide) rfl
  refine ⟨h.1, h.2.1, ?_⟩
  have ht := h.2.2.2 5 rfl
  rw [ht]
  decide

/-- Arithmetic of the inclusive range bound: for `1 ≤ page`,
`(page-1)*pageSize + pageSize - 1 = page*pageSize - 1`. -/
theorem range_toIdx_eq (page pageSize : Nat) (hp : 1 ≤ page) :
    (page - 1) * pageSize + pageSize - 1 = page * pageSize - 1 := by
  obtain ⟨p, rfl⟩ := Nat.exists_eq_add_of_le hp
  calc (1 + p - 1) * pageSize + pageSize - 1
      = p * pageSize + pageSize - 1 := by rw [Nat.add_sub_cancel_left]
    _ = pageSize + p * pageSize - 1 := by rw [Nat.add_comm]
    _ = (1 + p) * pageSize - 1 := by rw [Nat.add_mul, Nat.one_mul]

/-- Mapping the first projection over a pairing map is the identity. -/
theorem map_fst_pairing {α β : Type} (g : α → Option β) (l : List α) :
    List.map Prod.fst (List.map (fun s => (s, g s)) l) = l := by
  induction l with
  | nil => rfl
  | cons a t ih => simp [ih]

/-- Claim C7: `fetchFilteredSites` returns at most `pageSize` rows, all
matching the conjunction of the equality filters with the case-insensitive
name-or-URL substring search; the page is exactly the ordered filtered rows
restricted to the zero-based row range starting at `(page-1)*pageSize` and
ending at `page*pageSize - 1`; `totalCount` is the number of rows matching
the filter ignoring pagination; and page and count come from the one
range-and-count query (one round trip). -/
theorem fetchFilteredSites_pagination
    (db : DB) (f : SiteFilter) (page pageSize : Nat) (flf : Bool)
    (hp : 1 ≤ page) (hs : 1 ≤ pageSize) :
    (fetchFilteredSites db f page pageSize flf).data.length ≤ pageSize ∧
    (fetchFilteredSites db f page pageSize flf).totalCount =
      (List.filter (matchesFilter f) db.sites).length ∧
    (∀ x ∈ (fetchFilteredSites db f page pageSize flf).data, matchesFilter f x.1 = true) ∧
    List.map Prod.fst (fetchFilteredSites db f page pageSize flf).data =
      List.take pageSize (List.drop ((page - 1) * pageSize)
        (orderByCreatedDesc (List.filter (matchesFilter f) db.sites))) ∧
    List.countP RemoteCall.isPageQuery (fetchFilteredSites db f page pageSize flf).trace = 1 ∧
    RemoteCall.pageQuery ((page - 1) * pageSize) (page * pageSize - 1) ∈
      (fetchFilteredSites db f page pageSize flf).trace := by
  refine ⟨?_, ?_, ?_, ?_, ?_, ?_⟩
  · simp only [fetchFilteredSites, List.length_map, pageRowsOf, List.length_take]
    exact Nat.min_le_left _ _
  · simp [fetchFilteredSites, filteredSitesOf]
  · intro x hx
    simp only [fetchFilteredSites] at hx
    obtain ⟨s, hsmem, rfl⟩ := List.mem_map.mp hx
    simp only [pageRowsOf] at hsmem
    have h1 := List.mem_of_mem_take hsmem
    have h2 := List.mem_of_mem_drop h1
    have h3 := mem_orderByCreatedDesc.mp h2
    simp only [filteredSitesOf] at h3
    exact (List.mem_filter.mp h3).2
  · exact map_fst_pairing _ _
  · by_cases h : 0 < (pageLogoIds db f page pageSize).length <;>
      simp [fetchFilteredSites, h, List.countP_cons, RemoteCall.isPageQuery,
        RemoteCall.isQueryFilesIn]
  · have harith := range_toIdx_eq page pageSize hp
    simp only [fetchFilteredSites]
    rw [← harith]
    exact List.mem_cons_self _ _

/-- Witness for C7: on a concrete state, a search for `"alpha"` (matching the
site named `"Alpha Casino"` case-insensitively) returns at most `pageSize`
rows, the filtered count (here 1), and the expected row-range query. -/
theorem fetchFilteredSites_pagination_witness :
    (fetchFilteredSites dbC9 ⟨none, none, none, some "alpha"⟩ 1 10 false).data.length ≤ 10 ∧
    (fetchFilteredSites dbC9 ⟨none, none, none, some "alpha"⟩ 1 10 false).totalCount =
      (List.filter (matchesFilter ⟨none, none, none, some "alpha"⟩) dbC9.sites).length ∧
    (fetchFilteredSites dbC9 ⟨none, none, none, some "alpha"⟩ 1 10 false).totalCount = 1 ∧
    RemoteCall.pageQuery 0 9 ∈
      (fetchFilteredSites dbC9 ⟨none, none, none, some "alpha"⟩ 1 10 false).trace := by
  have h := fetchFilteredSites_pagination dbC9 ⟨none, none, none, some "alpha"⟩ 1 10 false
    (by decide) (by decide)
  refine ⟨h.1, h.2.1, h.2.1.trans (by decide), ?_⟩
  have hm := h.2.2.2.2.2
  simpa using hm

/-- `mergedLogoUrl` over an empty resolved list is always null. -/
theorem mergedLogoUrl_nil (logo : Option Nat) : mergedLogoUrl [] logo = none := by
  cases logo <;> simp [mergedLogoUrl]

/-- `find?` stays `none` on a filtered sublist. -/
theorem find?_filter_none {p q : FileRow → Bool} {l : List FileRow}
    (h : List.find? p l = none) : List.find? p (List.filter q l) = none := by
  apply List.find?_eq_none.mpr
  intro x hx
  exact List.find?_eq_none.mp h x (List.mem_filter.mp hx).1

/-- Counterexample to claim C9: the collected logo ids are **not**
deduplicated — a page whose two rows share logo id 5 collects `[5, 5]` and
issues the batch lookup for that duplicated list, which is not the list of
distinct ids. -/
theorem fetchFilteredSites_distinct_ids_counterexample :
    pageLogoIds dbC9 fNone 1 10 = [5, 5] ∧
    RemoteCall.queryFilesIn [5, 5] ∈ (fetchFilteredSites dbC9 fNone 1 10 false).trace ∧
    ¬ List.Nodup [5, 5] := by
  decide

/-- Claim C9 as amended: after fetching a page, `fetchFilteredSites` collects
the non-null logo ids of the page's rows in page order (duplicates included,
no deduplication); when that list is non-empty it issues exactly one batch
`IN` lookup against the `File` table for exactly that list; resolved URLs are
merged back by id onto the rows, and a row with no logo id, or whose id no
`File` row resolves, or whose lookup failed, gets a null URL rather than an
error. -/
theorem fetchFilteredSites_logo_enrichment
    (db : DB) (f : SiteFilter) (page pageSize : Nat) (flf : Bool)
    (hne : pageLogoIds db f page pageSize ≠ []) :
    (fetchFilteredSites db f page pageSize flf).trace =
      [RemoteCall.pageQuery ((page - 1) * pageSize) ((page - 1) * pageSize + pageSize - 1),
        RemoteCall.queryFilesIn (pageLogoIds db f page pageSize)] ∧
    List.countP RemoteCall.isQueryFilesIn
      (fetchFilteredSites db f page pageSize flf).trace = 1 ∧
    List.map Prod.fst (fetchFilteredSites db f page pageSize flf).data =
      pageRowsOf db f page pageSize ∧
    (∀ x ∈ (fetchFilteredSites db f page pageSize flf).data,
      x.1.logo_image = none → x.2 = none) ∧
    (∀ x ∈ (fetchFilteredSites db f page pageSize flf).data, ∀ id,
      x.1.logo_image = some id →
      List.find? (fun fr => fr.file_seq == id) db.files = none → x.2 = none) ∧
    (flf = true → ∀ x ∈ (fetchFilteredSites db f page pageSize flf).data, x.2 = none) := by
  have hpos : 0 < (pageLogoIds db f page pageSize).length := List.length_pos.mpr hne
  refine ⟨?_, ?_, ?_, ?_, ?_, ?_⟩
  · simp [fetchFilteredSites, hpos]
  · simp [fetchFilteredSites, hpos, List.countP_cons, RemoteCall.isQueryFilesIn,
      RemoteCall.isPageQuery]
  · exact map_fst_pairing _ _
  · intro x hx hnone
    simp only [fetchFilteredSites] at hx
    obtain ⟨s, hsmem, rfl⟩ := List.mem_map.mp hx
    simp only at hnone
    simp [mergedLogoUrl, hnone]
  · intro x hx id hid hfind
    simp only [fetchFilteredSites] at hx
    obtain ⟨s, hsmem, rfl⟩ := List.mem_map.mp hx
    simp only at hid
    show mergedLogoUrl
        (if 0 < (pageLogoIds db f page pageSize).length ∧ flf = false then
          List.filter (fun fr => (pageLogoIds db f page pageSize).contains fr.file_seq) db.files
        else []) s.logo_image = none
    rw [hid]
    by_cases hc : 0 < (pageLogoIds db f page pageSize).length ∧ flf = false
    · have hsub : List.find? (fun fr => fr.file_seq == id)
          (List.filter (fun fr => (pageLogoIds db f page pageSize).contains fr.file_seq)
            db.files) = none := find?_filter_none hfind
      rw [if_pos hc]
      simp only [mergedLogoUrl]
      rw [hsub]
    · rw [if_neg hc]
      exact mergedLogoUrl_nil _
  · intro hflf x hx
    simp only [fetchFilteredSites] at hx
    obtain ⟨s, hsmem, rfl⟩ := List.mem_map.mp hx
    have hc : ¬ (0 < (pageLogoIds db f page pageSize).length ∧ flf = false) := by
      simp [hflf]
    show mergedLogoUrl
        (if 0 < (pageLogoIds db f page pageSize).length ∧ flf = false then
          List.filter (fun fr => (pageLogoIds db f page pageSize).contains fr.file_seq) db.files
        else []) s.logo_image = none
    rw [if_neg hc]
    exact mergedLogoUrl_nil _

/-- Witness for the amended C9: on a page with logo ids `[6, 5, null]` in
page order (5 resolving, 6 not), exactly one batch lookup for `[6, 5]` is
issued, the logoless row and the unresolvable row get null URLs, and the
resolving row gets its URL. -/
theorem fetchFilteredSites_logo_enrichment_witness :
    (fetchFilteredSites dbLogos fNone 1 10 false).trace =
      [RemoteCall.pageQuery 0 9, RemoteCall.queryFilesIn [6, 5]] ∧
    (∀ x ∈ (fetchFilteredSites dbLogos fNone 1 10 false).data,
      x.1.logo_image = none → x.2 = none) ∧
    (fetchFilteredSites dbLogos fNone 1 10 false).data.map Prod.snd =
      [none, some "https://storage.example/public/sites/logos/t.png", none] := by
  have h := fetchFilteredSites_logo_enrichment dbLogos fNone 1 10 false (by decide)
  refine ⟨?_, h.2.2.2.1, by decide⟩
  have ht := h.1
  rw [ht]
  decide
